import Mathlib

/-!
Verification development for the realtime-chat WebSocket core
(`internal/config/config.go`, `internal/websocket/manager.go`,
`internal/websocket/connection.go`).

Shallow embedding conventions:
* Go `time.Time` instants and `time.Duration` values are integer
  nanoseconds (`Int`); a `time.Time` field that may hold the zero value
  (checked with `IsZero`) is an `Option Int` with `none` for the zero value.
* `time.Since(t)` evaluated at instant `now` is `now - t`.
* A Go map is an association list keyed by `String`; a buffered channel of
  capacity `cap` holding pending elements `q` accepts a non-blocking send
  exactly when `q.length < cap`.
* Calls into the external collaborators (room service, user service, the
  raw socket) are recorded as an explicit effect list.
* Config fields not exercised by the embedded operations are omitted.
-/

namespace RealtimeChat

/-- Health record of one connection (`config.ConnectionHealth`). -/
structure ConnectionHealth where
  isHealthy : Bool
  lastPingTime : Option Int
  lastPongTime : Option Int
  pingsSent : Nat
  pongsReceived : Nat
  missedPongs : Nat
  connectionStart : Int
  lastActivity : Int
  deriving DecidableEq

/-- `config.NewConnectionHealth`. -/
def newConnectionHealth (now : Int) : ConnectionHealth :=
  { isHealthy := true
    lastPingTime := none
    lastPongTime := none
    pingsSent := 0
    pongsReceived := 0
    missedPongs := 0
    connectionStart := now
    lastActivity := now }

/-- `ConnectionHealth.RecordPing`. -/
def recordPing (ch : ConnectionHealth) (now : Int) : ConnectionHealth :=
  { ch with lastPingTime := some now, pingsSent := ch.pingsSent + 1 }

/-- `ConnectionHealth.RecordPong`. -/
def recordPong (ch : ConnectionHealth) (now : Int) : ConnectionHealth :=
  { ch with
    lastPongTime := some now
    pongsReceived := ch.pongsReceived + 1
    isHealthy := true
    missedPongs := 0 }

/-- `ConnectionHealth.RecordActivity`. -/
def recordActivity (ch : ConnectionHealth) (now : Int) : ConnectionHealth :=
  { ch with lastActivity := now }

/-- The two assignments performed on a failed check
(`ch.IsHealthy = false; ch.MissedPongs++`). -/
def markUnhealthy (ch : ConnectionHealth) : ConnectionHealth :=
  { ch with isHealthy := false, missedPongs := ch.missedPongs + 1 }

/-- `ConnectionHealth.CheckHealth` at instant `now`: returns the reported
health together with the updated record. -/
def checkHealth (ch : ConnectionHealth) (now pongTimeout : Int) : Bool × ConnectionHealth :=
  match ch.lastPingTime with
  | none => (true, ch)
  | some ping =>
    match ch.lastPongTime with
    | none =>
      if now - ping > pongTimeout then (false, markUnhealthy ch)
      else (true, ch)
    | some pong =>
      if now - pong > pongTimeout then (false, markUnhealthy ch)
      else (ch.isHealthy, ch)

/-- One operation on a health record, tagged with the instant at which it
runs (and the timeout argument for a check). -/
inductive HealthOp where
  | ping (now : Int)
  | pong (now : Int)
  | activity (now : Int)
  | check (now pongTimeout : Int)
  deriving DecidableEq

/-- State transition of a single `HealthOp`. -/
def applyHealthOp (ch : ConnectionHealth) : HealthOp → ConnectionHealth
  | HealthOp.ping now => recordPing ch now
  | HealthOp.pong now => recordPong ch now
  | HealthOp.activity now => recordActivity ch now
  | HealthOp.check now pongTimeout => (checkHealth ch now pongTimeout).2

/-- The boolean a `HealthOp` reports (only a check reports one). -/
def healthOpReport (ch : ConnectionHealth) : HealthOp → Option Bool
  | HealthOp.ping _ => none
  | HealthOp.pong _ => none
  | HealthOp.activity _ => none
  | HealthOp.check now pongTimeout => some (checkHealth ch now pongTimeout).1

/-- Per-user fixed-window counter (`config.UserRateLimit`). -/
structure UserRateLimit where
  messageCount : Int
  windowStart : Int
  deriving DecidableEq

/-- The slice of `config.ServerConfig` exercised by the embedded
operations. -/
structure ServerConfig where
  maxConnections : Int
  pongTimeout : Int
  rateLimitMessages : Int
  rateLimitWindow : Int
  enableRateLimit : Bool
  deriving DecidableEq

/-- `config.RateLimiter`: the per-user map plus the config it was built
with. -/
structure RateLimiter where
  limits : List (String × UserRateLimit)
  config : ServerConfig
  deriving DecidableEq

/-- Go map read `rl.limits[userID]`. -/
def mapGet (m : List (String × UserRateLimit)) (k : String) : Option UserRateLimit :=
  match m with
  | [] => none
  | (k', v) :: rest => if k' = k then some v else mapGet rest k

/-- Go map write `rl.limits[userID] = v`. -/
def mapSet (m : List (String × UserRateLimit)) (k : String) (v : UserRateLimit) :
    List (String × UserRateLimit) :=
  match m with
  | [] => [(k, v)]
  | (k', v') :: rest => if k' = k then (k, v) :: rest else (k', v') :: mapSet rest k v

/-- `RateLimiter.CheckRateLimit` at instant `now`: returns whether the
message is accepted, together with the updated limiter. -/
def checkRateLimit (rl : RateLimiter) (userID : String) (now : Int) : Bool × RateLimiter :=
  if rl.config.enableRateLimit = false then (true, rl)
  else
    let userLimit :=
      match mapGet rl.limits userID with
      | none => ({ messageCount := 0, windowStart := now } : UserRateLimit)
      | some ul => ul
    let userLimit :=
      if now - userLimit.windowStart > rl.config.rateLimitWindow then
        ({ messageCount := 0, windowStart := now } : UserRateLimit)
      else userLimit
    if userLimit.messageCount ≥ rl.config.rateLimitMessages then
      (false, { rl with limits := mapSet rl.limits userID userLimit })
    else
      let bumped := { userLimit with messageCount := userLimit.messageCount + 1 }
      (true, { rl with limits := mapSet rl.limits userID bumped })

/-- `RateLimiter.GetRateLimitStatus` at instant `now`:
`(remaining, limit, timeRemaining)`. -/
def getRateLimitStatus (rl : RateLimiter) (userID : String) (now : Int) : Int × Int × Int :=
  match mapGet rl.limits userID with
  | none => (0, rl.config.rateLimitMessages, rl.config.rateLimitWindow)
  | some ul =>
    let remaining := rl.config.rateLimitMessages - ul.messageCount
    let remaining := if remaining < 0 then 0 else remaining
    let timeRemaining := rl.config.rateLimitWindow - (now - ul.windowStart)
    let timeRemaining := if timeRemaining < 0 then 0 else timeRemaining
    (remaining, rl.config.rateLimitMessages, timeRemaining)

/-- Run a sequence of `CheckRateLimit` calls for one user at the given
instants; returns the final limiter and the list of accept decisions. -/
def runCalls (rl : RateLimiter) (userID : String) : List Int → RateLimiter × List Bool
  | [] => (rl, [])
  | t :: ts =>
    let r := checkRateLimit rl userID t
    let rest := runCalls r.2 userID ts
    (rest.1, r.1 :: rest.2)

/-- Number of accepted calls in a decision list. -/
def countAccepts : List Bool → Nat
  | [] => 0
  | b :: rest => (if b then 1 else 0) + countAccepts rest

/-- An authenticated-user view as seen through `websocket.UserInterface`. -/
structure User where
  isAuthenticated : Bool
  username : String
  currentRoom : String
  deriving DecidableEq

/-- `websocket.WebSocketConnection`: id, optional user, the buffered
`Send` channel (pending messages plus its capacity and closed flag) and
the health record.  The raw socket handle is addressed through effects. -/
structure WebSocketConnection where
  id : String
  user : Option User
  send : List String
  sendCap : Nat
  sendClosed : Bool
  health : ConnectionHealth
  deriving DecidableEq

/-- `websocket.NewWebSocketConnection`: empty 256-slot queue, fresh
health record. -/
def newWebSocketConnection (id : String) (now : Int) : WebSocketConnection :=
  { id := id
    user := none
    send := []
    sendCap := 256
    sendClosed := false
    health := newConnectionHealth now }

/-- `websocket.Message` (the timestamp does not influence fan-out). -/
structure Message where
  type : String
  content : String
  sender : String
  username : String
  timestamp : Int
  deriving DecidableEq

/-- `websocket.BroadcastMessage`. -/
structure BroadcastMessage where
  message : Message
  excludeID : String
  roomName : String
  deriving DecidableEq

/-- Calls the manager makes on its external collaborators. -/
inductive Effect where
  | leaveRoom (username room : String)
  | unregisterUser (connID : String)
  | closeSend (connID : String)
  | socketWrite (connID text : String)
  | socketClose (connID : String)
  deriving DecidableEq

/-- The slice of `config.ServerMetrics` the manager mutates. -/
structure ServerMetrics where
  totalConnections : Int
  activeConnections : Int
  totalMessages : Int
  totalUsers : Int
  deriving DecidableEq

/-- `websocket.Manager`: the registry map (ids are unique in any
reachable state), the config and the metrics counters. -/
structure Manager where
  connections : List WebSocketConnection
  config : ServerConfig
  metrics : ServerMetrics
  deriving DecidableEq

/-- Registry lookup by connection id (`m.connections[connID]`). -/
def lookupConn (conns : List WebSocketConnection) (id : String) : Option WebSocketConnection :=
  match conns with
  | [] => none
  | c :: rest => if c.id = id then some c else lookupConn rest id

/-- Registry removal by connection id (`delete(m.connections, connID)`). -/
def removeConn (conns : List WebSocketConnection) (id : String) : List WebSocketConnection :=
  match conns with
  | [] => []
  | c :: rest => if c.id = id then rest else c :: removeConn rest id

/-- The message text built at the top of `Manager.broadcastMessage`. -/
def formatMessage (msg : Message) : String :=
  if msg.type = "text" ∧ msg.username ≠ "" then
    "[" ++ msg.username ++ "]: " ++ msg.content
  else msg.content

/-- The room-filter test of `Manager.broadcastMessage`: `true` exactly when
the loop `continue`s because a filter is set, the connection has a user and
that user's current room differs. -/
def roomFilterSkips (c : WebSocketConnection) (roomName : String) : Bool :=
  if roomName = "" then false
  else
    match c.user with
    | some u => if u.currentRoom = roomName then false else true
    | none => false

/-- The fan-out loop of `Manager.broadcastMessage` over the registry:
returns the surviving connections, the ids delivered to, and the effects
(queue-full evictions close the send channel). -/
def broadcastLoop (formatted excludeID roomName : String) :
    List WebSocketConnection → List WebSocketConnection × List String × List Effect
  | [] => ([], [], [])
  | c :: rest =>
    let r := broadcastLoop formatted excludeID roomName rest
    if c.id = excludeID then (c :: r.1, r.2.1, r.2.2)
    else if roomFilterSkips c roomName then (c :: r.1, r.2.1, r.2.2)
    else if c.send.length < c.sendCap then
      ({ c with send := c.send ++ [formatted] } :: r.1, c.id :: r.2.1, r.2.2)
    else (r.1, r.2.1, Effect.closeSend c.id :: r.2.2)

/-- `Manager.broadcastMessage`: fan out one `BroadcastMessage`; returns
the new manager state, the ids delivered to, and the emitted effects. -/
def broadcastMessage (m : Manager) (bm : BroadcastMessage) :
    Manager × List String × List Effect :=
  let formatted := formatMessage bm.message
  let r := broadcastLoop formatted bm.excludeID bm.roomName m.connections
  let metrics :=
    if bm.message.type = "text" then
      { m.metrics with totalMessages := m.metrics.totalMessages + 1 }
    else m.metrics
  ({ m with connections := r.1, metrics := metrics }, r.2.1, r.2.2)

/-- `Manager.unregisterConnection` at instant `now`: if the connection is
still registered, optionally broadcast the leave notice and run the
room-leave and user-unregistration side effects (authenticated user only),
then delete it, close its send channel and decrement the connection
metric. -/
def unregisterConnection (m : Manager) (conn : WebSocketConnection) (now : Int) :
    Manager × List Effect :=
  match lookupConn m.connections conn.id with
  | none => (m, [])
  | some _ =>
    let step :=
      match conn.user with
      | none => (m, ([] : List Effect))
      | some u =>
        if u.isAuthenticated then
          let leaveMsg : Message :=
            { type := "user_left"
              content := "👋 " ++ u.username ++ " ออกจากระบบแล้ว"
              sender := "System"
              username := "System"
              timestamp := now }
          let b := broadcastMessage m { message := leaveMsg, excludeID := "", roomName := "" }
          let roomEffs :=
            if u.currentRoom ≠ "" then [Effect.leaveRoom u.username u.currentRoom] else []
          let m1 := b.1
          let m2 := { m1 with metrics := { m1.metrics with totalUsers := m1.metrics.totalUsers - 1 } }
          (m2, b.2.2 ++ roomEffs ++ [Effect.unregisterUser conn.id])
        else (m, ([] : List Effect))
    let m1 := step.1
    let m2 :=
      { m1 with
        connections := removeConn m1.connections conn.id
        metrics := { m1.metrics with activeConnections := m1.metrics.activeConnections - 1 } }
    (m2, step.2 ++ [Effect.closeSend conn.id])

/-- The capacity-rejection text of `Manager.registerConnection`. -/
def capacityText : String := "❌ เซิร์ฟเวอร์เต็ม กรุณาลองใหม่ภายหลัง"

/-- The auth-request content enqueued by `Manager.registerConnection`. -/
def authRequestText : String := "กรุณาระบุชื่อผู้ใช้ของคุณ:"

/-- `Manager.registerConnection`: reject at capacity (one socket write
plus a socket close, state untouched); otherwise add the connection,
bump the metrics and enqueue the auth request, evicting on a full queue. -/
def registerConnection (m : Manager) (conn : WebSocketConnection) :
    Manager × List Effect :=
  if (m.connections.length : Int) ≥ m.config.maxConnections then
    (m, [Effect.socketWrite conn.id capacityText, Effect.socketClose conn.id])
  else
    let metrics :=
      { m.metrics with
        totalConnections := m.metrics.totalConnections + 1
        activeConnections := m.metrics.activeConnections + 1 }
    if conn.send.length < conn.sendCap then
      let conn' := { conn with send := conn.send ++ [authRequestText] }
      ({ m with connections := m.connections ++ [conn'], metrics := metrics }, [])
    else
      ({ m with connections := removeConn (m.connections ++ [conn]) conn.id, metrics := metrics },
       [Effect.closeSend conn.id])

/-- `Manager.GetConnectionCount`. -/
def getConnectionCount (m : Manager) : Nat :=
  m.connections.length

/-- `WebSocketConnection.SendMessage` at instant `now`: records activity,
then a non-blocking enqueue; a full queue only logs and still returns a
`nil` error (`none`). -/
def sendMessage (c : WebSocketConnection) (now : Int) (message : String) :
    WebSocketConnection × Option String :=
  let c1 := { c with health := recordActivity c.health now }
  if c1.send.length < c1.sendCap then
    ({ c1 with send := c1.send ++ [message] }, none)
  else (c1, none)

/-- Fixture configuration for concrete instances. -/
def cfgEx : ServerConfig :=
  { maxConnections := 2
    pongTimeout := 5
    rateLimitMessages := 2
    rateLimitWindow := 10
    enableRateLimit := true }

/-- Fixture metrics. -/
def metricsEx : ServerMetrics :=
  { totalConnections := 2, activeConnections := 2, totalMessages := 0, totalUsers := 1 }

/-- Fixture authenticated user in room `general`. -/
def userAlice : User :=
  { isAuthenticated := true, username := "alice", currentRoom := "general" }

/-- Fixture connection with an attached user and room to spare in its
queue. -/
def connA : WebSocketConnection :=
  { id := "a", user := some userAlice, send := [], sendCap := 2, sendClosed := false
    health := newConnectionHealth 0 }

/-- Fixture connection with no user attached. -/
def connNoUser : WebSocketConnection :=
  { id := "b", user := none, send := [], sendCap := 2, sendClosed := false
    health := newConnectionHealth 0 }

/-- Fixture connection whose outbound queue is full. -/
def connFull : WebSocketConnection :=
  { id := "f", user := some userAlice, send := ["m1", "m2"], sendCap := 2, sendClosed := false
    health := newConnectionHealth 0 }

/-- Fixture text message. -/
def msgHi : Message :=
  { type := "text", content := "hi", sender := "a", username := "alice", timestamp := 0 }

/-- The per-user state `CheckRateLimit` reads before acting: the stored
entry, or a fresh zero-count entry starting now (the get-or-create step). -/
def currentLimit (rl : RateLimiter) (uid : String) (now : Int) : UserRateLimit :=
  match mapGet rl.limits uid with
  | none => { messageCount := 0, windowStart := now }
  | some ul => ul

/-- The per-user state after the lazy window reset: reset to a fresh
window exactly when `now - windowStart` exceeds the window duration. -/
def effectiveLimit (rl : RateLimiter) (uid : String) (now : Int) : UserRateLimit :=
  if now - (currentLimit rl uid now).windowStart > rl.config.rateLimitWindow then
    { messageCount := 0, windowStart := now }
  else currentLimit rl uid now

/-- Fixture health record: one ping sent at t = 0, never answered. -/
def chPinged : ConnectionHealth :=
  { isHealthy := true, lastPingTime := some 0, lastPongTime := none
    pingsSent := 1, pongsReceived := 0, missedPongs := 0
    connectionStart := 0, lastActivity := 0 }

/-- Fixture health record: a ping at t = 0 answered by a pong at t = 1. -/
def chAnswered : ConnectionHealth :=
  { isHealthy := true, lastPingTime := some 0, lastPongTime := some 1
    pingsSent := 1, pongsReceived := 1, missedPongs := 0
    connectionStart := 0, lastActivity := 1 }

/-! ## Lemmas about the broadcast fan-out loop -/

lemma broadcastMessage_delivered (m : Manager) (bm : BroadcastMessage) :
    (broadcastMessage m bm).2.1 =
      (broadcastLoop (formatMessage bm.message) bm.excludeID bm.roomName m.connections).2.1 := rfl

lemma broadcastMessage_connections (m : Manager) (bm : BroadcastMessage) :
    (broadcastMessage m bm).1.connections =
      (broadcastLoop (formatMessage bm.message) bm.excludeID bm.roomName m.connections).1 := rfl

lemma broadcastMessage_effects (m : Manager) (bm : BroadcastMessage) :
    (broadcastMessage m bm).2.2 =
      (broadcastLoop (formatMessage bm.message) bm.excludeID bm.roomName m.connections).2.2 := rfl

lemma broadcastLoop_delivered_ne_exclude (f ex rn : String) :
    ∀ (l : List WebSocketConnection) (id : String),
      id ∈ (broadcastLoop f ex rn l).2.1 → id ≠ ex := by
  intro l
  induction l with
  | nil => intro id h; simp [broadcastLoop] at h
  | cons a rest ih =>
    intro id h
    by_cases hex : a.id = ex
    · simp [broadcastLoop, hex] at h
      exact ih id h
    · by_cases hroom : roomFilterSkips a rn
      · simp [broadcastLoop, hex, hroom] at h
        exact ih id h
      · by_cases hfull : a.send.length < a.sendCap
        · simp [broadcastLoop, hex, hroom, hfull] at h
          rcases h with h | h
          · subst h; exact hex
          · exact ih id h
        · simp [broadcastLoop, hex, hroom, hfull] at h
          exact ih id h

lemma broadcastLoop_delivered_mem_ids (f ex rn : String) :
    ∀ (l : List WebSocketConnection) (id : String),
      id ∈ (broadcastLoop f ex rn l).2.1 → id ∈ l.map WebSocketConnection.id := by
  intro l
  induction l with
  | nil => intro id h; simp [broadcastLoop] at h
  | cons a rest ih =>
    intro id h
    by_cases hex : a.id = ex
    · simp [broadcastLoop, hex] at h
      exact List.mem_cons_of_mem _ (ih id h)
    · by_cases hroom : roomFilterSkips a rn
      · simp [broadcastLoop, hex, hroom] at h
        exact List.mem_cons_of_mem _ (ih id h)
      · by_cases hfull : a.send.length < a.sendCap
        · simp [broadcastLoop, hex, hroom, hfull] at h
          rcases h with h | h
          · subst h; exact List.mem_cons_self _ _
          · exact List.mem_cons_of_mem _ (ih id h)
        · simp [broadcastLoop, hex, hroom, hfull] at h
          exact List.mem_cons_of_mem _ (ih id h)

lemma broadcastLoop_lookup_exclude (f ex rn : String) :
    ∀ (l : List WebSocketConnection),
      lookupConn (broadcastLoop f ex rn l).1 ex = lookupConn l ex := by
  intro l
  induction l with
  | nil => simp [broadcastLoop]
  | cons a rest ih =>
    by_cases hex : a.id = ex
    · simp [broadcastLoop, lookupConn, hex, ih]
    · by_cases hroom : roomFilterSkips a rn
      · simp [broadcastLoop, lookupConn, hex, hroom, ih]
      · by_cases hfull : a.send.length < a.sendCap
        · simp [broadcastLoop, lookupConn, hex, hroom, hfull, ih]
        · simp [broadcastLoop, lookupConn, hex, hroom, hfull, ih]

lemma roomFilterSkips_eq_false_iff (c : WebSocketConnection) (rn : String) :
    roomFilterSkips c rn = false ↔
      (rn = "" ∨ c.user = none ∨ ∃ u, c.user = some u ∧ u.currentRoom = rn) := by
  unfold roomFilterSkips
  by_cases hrn : rn = ""
  · simp [hrn]
  · cases hu : c.user with
    | none => simp [hrn, hu]
    | some u =>
      by_cases hr : u.currentRoom = rn
      · simp [hrn, hu, hr]
      · simp [hrn, hu, hr]

lemma broadcastLoop_delivered_iff (f ex rn : String) :
    ∀ (l : List WebSocketConnection), (l.map WebSocketConnection.id).Nodup →
      ∀ c ∈ l, (c.id ∈ (broadcastLoop f ex rn l).2.1 ↔
        (c.id ≠ ex ∧ roomFilterSkips c rn = false ∧ c.send.length < c.sendCap)) := by
  intro l
  induction l with
  | nil => intro _ c hc; simp at hc
  | cons a rest ih =>
    intro hnd c hc
    have hnd' : (rest.map WebSocketConnection.id).Nodup := (List.nodup_cons.mp hnd).2
    have hna : a.id ∉ rest.map WebSocketConnection.id := (List.nodup_cons.mp hnd).1
    rcases List.mem_cons.mp hc with hca | hcr
    · subst hca
      have hnotrest : c.id ∉ (broadcastLoop f ex rn rest).2.1 := fun hmem =>
        hna (broadcastLoop_delivered_mem_ids f ex rn rest c.id hmem)
      by_cases hex : c.id = ex
      · rw [hex] at hnotrest
        simp [broadcastLoop, hex, hnotrest]
      · by_cases hroom : roomFilterSkips c rn
        · simp [broadcastLoop, hex, hroom, hnotrest]
        · by_cases hfull : c.send.length < c.sendCap
          · simp [broadcastLoop, hex, hroom, hfull]
          · simp [broadcastLoop, hex, hroom, hfull, hnotrest]
    · have hne : c.id ≠ a.id := by
        intro hcontra
        exact hna (hcontra ▸ List.mem_map_of_mem WebSocketConnection.id hcr)
      have hrec := ih hnd' c hcr
      by_cases hex : a.id = ex
      · simpa [broadcastLoop, hex] using hrec
      · by_cases hroom : roomFilterSkips a rn
        · simpa [broadcastLoop, hex, hroom] using hrec
        · by_cases hfull : a.send.length < a.sendCap
          · simp [broadcastLoop, hex, hroom, hfull, hne]
            exact hrec
          · simpa [broadcastLoop, hex, hroom, hfull] using hrec

/-! ## Claim theorems: broadcast delivery filtering -/

/-- C5: `Broadcast(payload, excludeID, roomFilter)` never delivers to the
connection with id equal to `excludeID`: the excluded id is never among
the delivered ids, and the excluded connection's registry entry (in
particular its outbound queue) is untouched by the broadcast. -/
theorem broadcast_never_delivers_to_excluded (m : Manager) (bm : BroadcastMessage) :
    bm.excludeID ∉ (broadcastMessage m bm).2.1 ∧
      lookupConn (broadcastMessage m bm).1.connections bm.excludeID
        = lookupConn m.connections bm.excludeID := by
  constructor
  · intro hmem
    rw [broadcastMessage_delivered] at hmem
    exact broadcastLoop_delivered_ne_exclude _ _ _ _ _ hmem rfl
  · rw [broadcastMessage_connections]
    exact broadcastLoop_lookup_exclude _ _ _ _

/-- C1 (amended): in a broadcast with distinct registry ids, a connection
is delivered to exactly when its id is not the excluded id, its outbound
queue has spare capacity, and either the room filter is empty, or the
connection has no user attached, or its user's current room equals the
filter.  In particular a connection with no user attached is delivered to
even when a room filter is set. -/
theorem broadcast_room_filter_delivery (m : Manager) (bm : BroadcastMessage)
    (hnd : (m.connections.map WebSocketConnection.id).Nodup)
    (c : WebSocketConnection) (hc : c ∈ m.connections) :
    c.id ∈ (broadcastMessage m bm).2.1 ↔
      (c.id ≠ bm.excludeID ∧ c.send.length < c.sendCap ∧
        (bm.roomName = "" ∨ c.user = none ∨
          ∃ u, c.user = some u ∧ u.currentRoom = bm.roomName)) := by
  rw [broadcastMessage_delivered]
  rw [broadcastLoop_delivered_iff (formatMessage bm.message) bm.excludeID bm.roomName
    m.connections hnd c hc]
  rw [roomFilterSkips_eq_false_iff]
  tauto

/-- Witness for C1: the fixture connection `connA` (user in room
`general`, spare queue) is delivered to by a room-filtered broadcast. -/
theorem broadcast_room_filter_delivery_witness :
    "a" ∈ (broadcastMessage
      { connections := [connA], config := cfgEx, metrics := metricsEx }
      { message := msgHi, excludeID := "", roomName := "general" }).2.1 := by
  have h := broadcast_room_filter_delivery
    { connections := [connA], config := cfgEx, metrics := metricsEx }
    { message := msgHi, excludeID := "", roomName := "general" }
    (by decide) connA (by decide)
  exact h.mpr ⟨by decide, by decide, Or.inr (Or.inr ⟨userAlice, rfl, rfl⟩)⟩

/-- Counterexample for C1 as frozen: a live connection with NO user
attached does receive a payload broadcast with a non-empty room filter
(the code skips the room check when `conn.User` is nil), contradicting
the claim that no such connection is delivered to. -/
theorem broadcast_room_filter_counterexample :
    "b" ∈ (broadcastMessage
      { connections := [connNoUser], config := cfgEx, metrics := metricsEx }
      { message := msgHi, excludeID := "", roomName := "general" }).2.1 := by decide

lemma lookupConn_eq_none_iff (l : List WebSocketConnection) (id : String) :
    lookupConn l id = none ↔ id ∉ l.map WebSocketConnection.id := by
  induction l with
  | nil => simp [lookupConn]
  | cons a rest ih =>
    by_cases h : a.id = id
    · simp [lookupConn, h]
    · simp only [lookupConn, if_neg h, ih, List.map_cons, List.mem_cons, not_or]
      constructor
      · intro hn
        exact ⟨fun h1 => h h1.symm, hn⟩
      · intro hn
        exact hn.2

lemma broadcastLoop_cons_exclude (f ex rn : String) (a : WebSocketConnection)
    (rest : List WebSocketConnection) (h : a.id = ex) :
    broadcastLoop f ex rn (a :: rest) =
      (a :: (broadcastLoop f ex rn rest).1,
       (broadcastLoop f ex rn rest).2.1, (broadcastLoop f ex rn rest).2.2) := by
  simp [broadcastLoop, h]

lemma broadcastLoop_cons_skip (f ex rn : String) (a : WebSocketConnection)
    (rest : List WebSocketConnection) (h1 : ¬ a.id = ex)
    (h2 : roomFilterSkips a rn = true) :
    broadcastLoop f ex rn (a :: rest) =
      (a :: (broadcastLoop f ex rn rest).1,
       (broadcastLoop f ex rn rest).2.1, (broadcastLoop f ex rn rest).2.2) := by
  simp [broadcastLoop, h1, h2]

lemma broadcastLoop_cons_deliver (f ex rn : String) (a : WebSocketConnection)
    (rest : List WebSocketConnection) (h1 : ¬ a.id = ex)
    (h2 : roomFilterSkips a rn = false) (h3 : a.send.length < a.sendCap) :
    broadcastLoop f ex rn (a :: rest) =
      ({ a with send := a.send ++ [f] } :: (broadcastLoop f ex rn rest).1,
       a.id :: (broadcastLoop f ex rn rest).2.1, (broadcastLoop f ex rn rest).2.2) := by
  simp [broadcastLoop, h1, h2, h3]

lemma broadcastLoop_cons_evict (f ex rn : String) (a : WebSocketConnection)
    (rest : List WebSocketConnection) (h1 : ¬ a.id = ex)
    (h2 : roomFilterSkips a rn = false) (h3 : ¬ a.send.length < a.sendCap) :
    broadcastLoop f ex rn (a :: rest) =
      ((broadcastLoop f ex rn rest).1, (broadcastLoop f ex rn rest).2.1,
       Effect.closeSend a.id :: (broadcastLoop f ex rn rest).2.2) := by
  simp [broadcastLoop, h1, h2, h3]

lemma broadcastLoop_lookup_none (f ex rn : String) :
    ∀ (l : List WebSocketConnection) (id : String),
      lookupConn l id = none → lookupConn (broadcastLoop f ex rn l).1 id = none := by
  intro l
  induction l with
  | nil => intro id _; simp [broadcastLoop, lookupConn]
  | cons a rest ih =>
    intro id h
    rw [lookupConn] at h
    by_cases hne : a.id = id
    · rw [if_pos hne] at h
      cases h
    · rw [if_neg hne] at h
      have hr := ih id h
      by_cases hex : a.id = ex
      · rw [broadcastLoop_cons_exclude f ex rn a rest hex]
        simpa [lookupConn, hne] using hr
      · by_cases hroom : roomFilterSkips a rn
        · rw [broadcastLoop_cons_skip f ex rn a rest hex hroom]
          simpa [lookupConn, hne] using hr
        · by_cases hfull : a.send.length < a.sendCap
          · rw [broadcastLoop_cons_deliver f ex rn a rest hex (by simpa using hroom) hfull]
            simpa [lookupConn, hne] using hr
          · rw [broadcastLoop_cons_evict f ex rn a rest hex (by simpa using hroom) hfull]
            simpa using hr

lemma broadcastLoop_full_evicts (f ex rn : String) :
    ∀ (l : List WebSocketConnection), (l.map WebSocketConnection.id).Nodup →
      ∀ c ∈ l, c.id ≠ ex → roomFilterSkips c rn = false → ¬ c.send.length < c.sendCap →
        lookupConn (broadcastLoop f ex rn l).1 c.id = none := by
  intro l
  induction l with
  | nil => intro _ c hc; simp at hc
  | cons a rest ih =>
    intro hnd c hc hex hroom hfull
    have hnd' : (rest.map WebSocketConnection.id).Nodup := (List.nodup_cons.mp hnd).2
    have hna : a.id ∉ rest.map WebSocketConnection.id := (List.nodup_cons.mp hnd).1
    rcases List.mem_cons.mp hc with hca | hcr
    · subst hca
      have hnone : lookupConn (broadcastLoop f ex rn rest).1 c.id = none :=
        broadcastLoop_lookup_none f ex rn rest c.id ((lookupConn_eq_none_iff rest c.id).mpr hna)
      rw [broadcastLoop_cons_evict f ex rn c rest hex hroom hfull]
      exact hnone
    · have hne : a.id ≠ c.id := by
        intro hcontra
        exact hna (hcontra ▸ List.mem_map_of_mem WebSocketConnection.id hcr)
      have hrec := ih hnd' c hcr hex hroom hfull
      by_cases haex : a.id = ex
      · rw [broadcastLoop_cons_exclude f ex rn a rest haex]
        simpa [lookupConn, hne] using hrec
      · by_cases haroom : roomFilterSkips a rn
        · rw [broadcastLoop_cons_skip f ex rn a rest haex haroom]
          simpa [lookupConn, hne] using hrec
        · by_cases hafull : a.send.length < a.sendCap
          · rw [broadcastLoop_cons_deliver f ex rn a rest haex (by simpa using haroom) hafull]
            simpa [lookupConn, hne] using hrec
          · rw [broadcastLoop_cons_evict f ex rn a rest haex (by simpa using haroom) hafull]
            simpa using hrec

lemma broadcastLoop_evicted_closeSend (f ex rn : String) :
    ∀ (l : List WebSocketConnection), ∀ c ∈ l,
      lookupConn (broadcastLoop f ex rn l).1 c.id = none →
        Effect.closeSend c.id ∈ (broadcastLoop f ex rn l).2.2 := by
  intro l
  induction l with
  | nil => intro c hc; simp at hc
  | cons a rest ih =>
    intro c hc hnone
    by_cases haex : a.id = ex
    · rw [broadcastLoop_cons_exclude f ex rn a rest haex] at hnone ⊢
      rcases List.mem_cons.mp hc with hca | hcr
      · subst hca
        simp [lookupConn] at hnone
      · by_cases hne : a.id = c.id
        · simp [lookupConn, hne] at hnone
        · rw [lookupConn, if_neg hne] at hnone
          exact ih c hcr hnone
    · by_cases haroom : roomFilterSkips a rn
      · rw [broadcastLoop_cons_skip f ex rn a rest haex haroom] at hnone ⊢
        rcases List.mem_cons.mp hc with hca | hcr
        · subst hca
          simp [lookupConn] at hnone
        · by_cases hne : a.id = c.id
          · simp [lookupConn, hne] at hnone
          · rw [lookupConn, if_neg hne] at hnone
            exact ih c hcr hnone
      · by_cases hafull : a.send.length < a.sendCap
        · rw [broadcastLoop_cons_deliver f ex rn a rest haex (by simpa using haroom) hafull]
            at hnone ⊢
          rcases List.mem_cons.mp hc with hca | hcr
          · subst hca
            simp [lookupConn] at hnone
          · by_cases hne : a.id = c.id
            · simp [lookupConn, hne] at hnone
            · rw [lookupConn] at hnone
              rw [if_neg (by simpa using hne)] at hnone
              exact ih c hcr hnone
        · rw [broadcastLoop_cons_evict f ex rn a rest haex (by simpa using haroom) hafull]
            at hnone ⊢
          rcases List.mem_cons.mp hc with hca | hcr
          · subst hca
            exact List.mem_cons_self _ _
          · exact List.mem_cons_of_mem _ (ih c hcr hnone)

lemma broadcastLoop_remove_full (f ex rn : String) :
    ∀ (l : List WebSocketConnection), (l.map WebSocketConnection.id).Nodup →
      ∀ c ∈ l, c.id ≠ ex → roomFilterSkips c rn = false → ¬ c.send.length < c.sendCap →
        (broadcastLoop f ex rn (removeConn l c.id)).1 = (broadcastLoop f ex rn l).1 ∧
        (broadcastLoop f ex rn (removeConn l c.id)).2.1 = (broadcastLoop f ex rn l).2.1 := by
  intro l
  induction l with
  | nil => intro _ c hc; simp at hc
  | cons a rest ih =>
    intro hnd c hc hex hroom hfull
    have hnd' : (rest.map WebSocketConnection.id).Nodup := (List.nodup_cons.mp hnd).2
    have hna : a.id ∉ rest.map WebSocketConnection.id := (List.nodup_cons.mp hnd).1
    rcases List.mem_cons.mp hc with hca | hcr
    · subst hca
      rw [show removeConn (c :: rest) c.id = rest by simp [removeConn]]
      rw [broadcastLoop_cons_evict f ex rn c rest hex hroom hfull]
      exact ⟨rfl, rfl⟩
    · have hne : a.id ≠ c.id := by
        intro hcontra
        exact hna (hcontra ▸ List.mem_map_of_mem WebSocketConnection.id hcr)
      have hrec := ih hnd' c hcr hex hroom hfull
      have hrm : removeConn (a :: rest) c.id = a :: removeConn rest c.id := by
        simp [removeConn, hne]
      rw [hrm]
      by_cases haex : a.id = ex
      · rw [broadcastLoop_cons_exclude f ex rn a (removeConn rest c.id) haex,
          broadcastLoop_cons_exclude f ex rn a rest haex]
        exact ⟨by rw [hrec.1], by rw [hrec.2]⟩
      · by_cases haroom : roomFilterSkips a rn
        · rw [broadcastLoop_cons_skip f ex rn a (removeConn rest c.id) haex haroom,
            broadcastLoop_cons_skip f ex rn a rest haex haroom]
          exact ⟨by rw [hrec.1], by rw [hrec.2]⟩
        · by_cases hafull : a.send.length < a.sendCap
          · rw [broadcastLoop_cons_deliver f ex rn a (removeConn rest c.id) haex
              (by simpa using haroom) hafull,
              broadcastLoop_cons_deliver f ex rn a rest haex (by simpa using haroom) hafull]
            exact ⟨by rw [hrec.1], by rw [hrec.2]⟩
          · rw [broadcastLoop_cons_evict f ex rn a (removeConn rest c.id) haex
              (by simpa using haroom) hafull,
              broadcastLoop_cons_evict f ex rn a rest haex (by simpa using haroom) hafull]
            exact ⟨by rw [hrec.1], by rw [hrec.2]⟩

/-- C4: in a single broadcast call over a registry with distinct ids, a
targeted connection whose outbound queue is full is evicted within that
same call (its id no longer resolves and its send channel is closed), and
the resulting manager state and the set of delivered recipients are
exactly those of the same broadcast run on the registry with that
connection absent — one slow consumer does not change delivery to the
others. -/
theorem broadcast_full_queue_frame (m : Manager) (bm : BroadcastMessage)
    (c : WebSocketConnection)
    (hnd : (m.connections.map WebSocketConnection.id).Nodup)
    (hc : c ∈ m.connections)
    (hex : c.id ≠ bm.excludeID)
    (hroom : roomFilterSkips c bm.roomName = false)
    (hfull : ¬ c.send.length < c.sendCap) :
    lookupConn (broadcastMessage m bm).1.connections c.id = none ∧
    Effect.closeSend c.id ∈ (broadcastMessage m bm).2.2 ∧
    (broadcastMessage { m with connections := removeConn m.connections c.id } bm).1
      = (broadcastMessage m bm).1 ∧
    (broadcastMessage { m with connections := removeConn m.connections c.id } bm).2.1
      = (broadcastMessage m bm).2.1 := by
  have h1 : lookupConn (broadcastMessage m bm).1.connections c.id = none := by
    rw [broadcastMessage_connections]
    exact broadcastLoop_full_evicts _ _ _ m.connections hnd c hc hex hroom hfull
  refine ⟨h1, ?_, ?_, ?_⟩
  · rw [broadcastMessage_effects]
    exact broadcastLoop_evicted_closeSend _ _ _ m.connections c hc
      (by rw [broadcastMessage_connections] at h1; exact h1)
  · have hr := broadcastLoop_remove_full (formatMessage bm.message) bm.excludeID bm.roomName
      m.connections hnd c hc hex hroom hfull
    show ({ connections := _, config := m.config, metrics := _ } : Manager) = _
    simp [broadcastMessage, hr.1]
  · have hr := broadcastLoop_remove_full (formatMessage bm.message) bm.excludeID bm.roomName
      m.connections hnd c hc hex hroom hfull
    simpa [broadcastMessage] using hr.2

/-- Witness for C4: in a two-connection registry where `connFull`'s queue
is full, the broadcast evicts `connFull` and delivers to `connA` exactly
as if `connFull` were absent. -/
theorem broadcast_full_queue_frame_witness :
    lookupConn (broadcastMessage
      { connections := [connA, connFull], config := cfgEx, metrics := metricsEx }
      { message := msgHi, excludeID := "", roomName := "" }).1.connections "f" = none ∧
    Effect.closeSend "f" ∈ (broadcastMessage
      { connections := [connA, connFull], config := cfgEx, metrics := metricsEx }
      { message := msgHi, excludeID := "", roomName := "" }).2.2 := by
  have h := broadcast_full_queue_frame
    { connections := [connA, connFull], config := cfgEx, metrics := metricsEx }
    { message := msgHi, excludeID := "", roomName := "" }
    connFull (by decide) (by decide) (by decide) (by decide) (by decide)
  exact ⟨h.1, h.2.1⟩

lemma broadcastLoop_effects_closeSend (f ex rn : String) :
    ∀ (l : List WebSocketConnection) (e : Effect), e ∈ (broadcastLoop f ex rn l).2.2 →
      ∃ id, e = Effect.closeSend id := by
  intro l
  induction l with
  | nil => intro e h; simp [broadcastLoop] at h
  | cons a rest ih =>
    intro e h
    by_cases haex : a.id = ex
    · rw [broadcastLoop_cons_exclude f ex rn a rest haex] at h
      exact ih e h
    · by_cases haroom : roomFilterSkips a rn
      · rw [broadcastLoop_cons_skip f ex rn a rest haex haroom] at h
        exact ih e h
      · by_cases hafull : a.send.length < a.sendCap
        · rw [broadcastLoop_cons_deliver f ex rn a rest haex (by simpa using haroom) hafull] at h
          exact ih e h
        · rw [broadcastLoop_cons_evict f ex rn a rest haex (by simpa using haroom) hafull] at h
          rcases List.mem_cons.mp h with h1 | h1
          · exact ⟨a.id, h1⟩
          · exact ih e h1

lemma broadcastMessage_metrics_frame (m : Manager) (bm : BroadcastMessage) :
    (broadcastMessage m bm).1.metrics.activeConnections = m.metrics.activeConnections ∧
    (broadcastMessage m bm).1.metrics.totalUsers = m.metrics.totalUsers := by
  by_cases h : bm.message.type = "text" <;> simp [broadcastMessage, h]

/-- C2 (amended): a queue-full eviction during a broadcast does NOT go
through the unregister path: the broadcast emits only send-channel
closes (never a room-leave or a user-unregistration), leaves the
user and connection metrics untouched, and every connection it evicts
gets exactly the map removal plus channel close. -/
theorem broadcast_eviction_skips_unregister_path (m : Manager) (bm : BroadcastMessage) :
    (∀ e ∈ (broadcastMessage m bm).2.2, ∃ id, e = Effect.closeSend id) ∧
    (broadcastMessage m bm).1.metrics.activeConnections = m.metrics.activeConnections ∧
    (broadcastMessage m bm).1.metrics.totalUsers = m.metrics.totalUsers ∧
    (∀ c ∈ m.connections, lookupConn (broadcastMessage m bm).1.connections c.id = none →
      Effect.closeSend c.id ∈ (broadcastMessage m bm).2.2) := by
  refine ⟨?_, (broadcastMessage_metrics_frame m bm).1,
    (broadcastMessage_metrics_frame m bm).2, ?_⟩
  · intro e he
    rw [broadcastMessage_effects] at he
    exact broadcastLoop_effects_closeSend _ _ _ m.connections e he
  · intro c hc hnone
    rw [broadcastMessage_connections] at hnone
    rw [broadcastMessage_effects]
    exact broadcastLoop_evicted_closeSend _ _ _ m.connections c hc hnone

/-- Witness for C2 (amended): evicting the fixture full-queue connection
during a broadcast emits its send-channel close. -/
theorem broadcast_eviction_skips_unregister_path_witness :
    Effect.closeSend "f" ∈ (broadcastMessage
      { connections := [connFull], config := cfgEx, metrics := metricsEx }
      { message := msgHi, excludeID := "", roomName := "" }).2.2 := by
  have h := broadcast_eviction_skips_unregister_path
    { connections := [connFull], config := cfgEx, metrics := metricsEx }
    { message := msgHi, excludeID := "", roomName := "" }
  exact h.2.2.2 connFull (by decide) (by decide)

/-- Counterexample for C2 as frozen: for a full-queue connection with an
authenticated user, the manager state after the broadcast's queue-full
eviction differs from the state after `unregisterConnection` on the same
connection (the unregister path decrements the user and connection
metrics; the broadcast eviction decrements neither). -/
theorem broadcast_eviction_counterexample :
    (broadcastMessage
      { connections := [connFull], config := cfgEx, metrics := metricsEx }
      { message := { type := "x", content := "hi", sender := "s", username := "u", timestamp := 0 },
        excludeID := "", roomName := "" }).1 ≠
    (unregisterConnection
      { connections := [connFull], config := cfgEx, metrics := metricsEx } connFull 0).1 := by
  decide

lemma removeConn_append_fresh :
    ∀ (l : List WebSocketConnection) (c : WebSocketConnection),
      lookupConn l c.id = none → removeConn (l ++ [c]) c.id = l := by
  intro l
  induction l with
  | nil => intro c _; simp [removeConn]
  | cons a rest ih =>
    intro c h
    rw [lookupConn] at h
    by_cases hne : a.id = c.id
    · rw [if_pos hne] at h
      cases h
    · rw [if_neg hne] at h
      simp only [List.cons_append, removeConn, if_neg hne]
      exact congrArg (List.cons a) (ih c h)

/-- C3 (amended): of the producer paths into a connection's bounded
outbound queue, the manager's broadcast fan-out and the register-time
auth-request enqueue treat a full queue as connection death (map removal
plus send-channel close), but `WebSocketConnection.SendMessage` does not:
there a full queue silently drops the message and returns a nil error,
leaving the connection live. -/
theorem full_queue_death_signal_paths :
    (∀ (c : WebSocketConnection) (now : Int) (msg : String), ¬ c.send.length < c.sendCap →
      (sendMessage c now msg).2 = none ∧ (sendMessage c now msg).1.send = c.send ∧
        (sendMessage c now msg).1.sendClosed = c.sendClosed) ∧
    (∀ (m : Manager) (bm : BroadcastMessage) (c : WebSocketConnection),
      (m.connections.map WebSocketConnection.id).Nodup → c ∈ m.connections →
      c.id ≠ bm.excludeID → roomFilterSkips c bm.roomName = false →
      ¬ c.send.length < c.sendCap →
      lookupConn (broadcastMessage m bm).1.connections c.id = none ∧
        Effect.closeSend c.id ∈ (broadcastMessage m bm).2.2) ∧
    (∀ (m : Manager) (conn : WebSocketConnection),
      ¬ (m.connections.length : Int) ≥ m.config.maxConnections →
      lookupConn m.connections conn.id = none →
      ¬ conn.send.length < conn.sendCap →
      lookupConn (registerConnection m conn).1.connections conn.id = none ∧
        (registerConnection m conn).2 = [Effect.closeSend conn.id]) := by
  refine ⟨?_, ?_, ?_⟩
  · intro c now msg hfull
    simp [sendMessage, hfull]
  · intro m bm c hnd hc hex hroom hfull
    constructor
    · rw [broadcastMessage_connections]
      exact broadcastLoop_full_evicts _ _ _ m.connections hnd c hc hex hroom hfull
    · rw [broadcastMessage_effects]
      refine broadcastLoop_evicted_closeSend _ _ _ m.connections c hc ?_
      exact broadcastLoop_full_evicts _ _ _ m.connections hnd c hc hex hroom hfull
  · intro m conn hcap hfresh hfull
    simp only [registerConnection, if_neg hcap, if_neg hfull]
    rw [removeConn_append_fresh m.connections conn hfresh]
    exact ⟨hfresh, trivial⟩

/-- Witness for C3 (amended): the fixture full-queue connection silently
drops a `SendMessage`, while registering a full-queue connection under
capacity evicts it with a channel close. -/
theorem full_queue_death_signal_paths_witness :
    (sendMessage connFull 0 "m").2 = none ∧
    (sendMessage connFull 0 "m").1.send = connFull.send ∧
    (registerConnection { connections := [connA], config := cfgEx, metrics := metricsEx }
      connFull).2 = [Effect.closeSend "f"] := by
  refine ⟨(full_queue_death_signal_paths.1 connFull 0 "m" (by decide)).1,
    (full_queue_death_signal_paths.1 connFull 0 "m" (by decide)).2.1,
    (full_queue_death_signal_paths.2.2
      { connections := [connA], config := cfgEx, metrics := metricsEx }
      connFull (by decide) (by decide) (by decide)).2⟩

/-- Counterexample for C3 as frozen: on the `SendMessage` producer path a
full queue is NOT treated as connection death — the enqueue attempt finds
the fixture queue full, yet returns a nil error, drops the message and
leaves the connection live (queue and closed flag unchanged). -/
theorem sendMessage_full_queue_counterexample :
    (sendMessage connFull 0 "m").2 = none ∧
    (sendMessage connFull 0 "m").1.send = ["m1", "m2"] ∧
    (sendMessage connFull 0 "m").1.sendClosed = false := by decide

/-- Witness for C5: a broadcast excluding the fixture connection `connA`
does not deliver to it. -/
theorem broadcast_never_delivers_to_excluded_witness :
    "a" ∉ (broadcastMessage
      { connections := [connA], config := cfgEx, metrics := metricsEx }
      { message := msgHi, excludeID := "a", roomName := "" }).2.1 :=
  (broadcast_never_delivers_to_excluded
    { connections := [connA], config := cfgEx, metrics := metricsEx }
    { message := msgHi, excludeID := "a", roomName := "" }).1

/-- C9: when a register request arrives while the live-connection count
already equals MaxConnections, the connection is rejected: the manager
state (connection map and metrics) is unchanged, the only effects are one
capacity message written to the socket followed by a socket close, and
the connection count afterwards still equals MaxConnections. -/
theorem register_at_capacity_rejected (m : Manager) (conn : WebSocketConnection)
    (h : (m.connections.length : Int) = m.config.maxConnections) :
    (registerConnection m conn).1 = m ∧
    (registerConnection m conn).2 =
      [Effect.socketWrite conn.id capacityText, Effect.socketClose conn.id] ∧
    ((getConnectionCount (registerConnection m conn).1 : Int) = m.config.maxConnections) := by
  have hge : (m.connections.length : Int) ≥ m.config.maxConnections := le_of_eq h.symm
  refine ⟨?_, ?_, ?_⟩
  · simp [registerConnection, hge]
  · simp [registerConnection, hge]
  · simp [registerConnection, hge, getConnectionCount, h]

/-- Witness for C9: with the fixture registry holding exactly
`maxConnections = 2` live connections, a third register attempt leaves
the state untouched. -/
theorem register_at_capacity_rejected_witness :
    (registerConnection
      { connections := [connA, connNoUser], config := cfgEx, metrics := metricsEx }
      connFull).1 =
      { connections := [connA, connNoUser], config := cfgEx, metrics := metricsEx } :=
  (register_at_capacity_rejected
    { connections := [connA, connNoUser], config := cfgEx, metrics := metricsEx }
    connFull (by decide)).1

/-- C6 (amended): `CheckHealth(pongTimeout)` reports a connection
unhealthy exactly when a ping was sent and either no pong was ever
received and the last ping is older than `pongTimeout`, or the last pong
is older than `pongTimeout` (regardless of whether that pong answered
the last ping), or the last pong is recent but the stored health flag is
already false; `missedPongs` is incremented exactly in the two staleness
cases and is otherwise unchanged. -/
theorem checkHealth_characterization (ch : ConnectionHealth) (now pongTimeout : Int) :
    ((checkHealth ch now pongTimeout).1 = false ↔
      (∃ p, ch.lastPingTime = some p ∧
        ((ch.lastPongTime = none ∧ now - p > pongTimeout) ∨
         (∃ q, ch.lastPongTime = some q ∧ now - q > pongTimeout) ∨
         (∃ q, ch.lastPongTime = some q ∧ ¬ now - q > pongTimeout ∧ ch.isHealthy = false)))) ∧
    ((checkHealth ch now pongTimeout).2.missedPongs = ch.missedPongs + 1 ↔
      (∃ p, ch.lastPingTime = some p ∧
        ((ch.lastPongTime = none ∧ now - p > pongTimeout) ∨
         (∃ q, ch.lastPongTime = some q ∧ now - q > pongTimeout)))) ∧
    ((checkHealth ch now pongTimeout).2.missedPongs = ch.missedPongs + 1 ∨
      (checkHealth ch now pongTimeout).2.missedPongs = ch.missedPongs) := by
  rcases hp : ch.lastPingTime with _ | p
  · simp [checkHealth, hp]
  · rcases hq : ch.lastPongTime with _ | q
    · by_cases ht : now - p > pongTimeout
      · simp [checkHealth, hp, hq, ht, markUnhealthy]
      · simp [checkHealth, hp, hq, ht]
    · by_cases ht : now - q > pongTimeout
      · simp [checkHealth, hp, hq, ht, markUnhealthy]
      · by_cases hh : ch.isHealthy
        · simp [checkHealth, hp, hq, ht, hh]
        · simp [checkHealth, hp, hq, ht, hh]
          omega

/-- Counterexample for C6 as frozen: the fixture record whose last sent
ping (t = 0) WAS answered by a pong (t = 1) is nonetheless reported
unhealthy at now = 10 with pongTimeout = 5 — merely because that pong is
older than pongTimeout — and its missedPongs is incremented. -/
theorem checkHealth_answered_ping_counterexample :
    (checkHealth chAnswered 10 5).1 = false ∧
    (checkHealth chAnswered 10 5).2.missedPongs = 1 := by decide

/-- Witness for C6 (amended): the stale-answered-pong fixture falls in
the increment case of the characterization. -/
theorem checkHealth_characterization_witness :
    (checkHealth chAnswered 10 5).2.missedPongs = chAnswered.missedPongs + 1 :=
  (checkHealth_characterization chAnswered 10 5).2.1.mpr
    ⟨0, rfl, Or.inr ⟨1, rfl, by decide⟩⟩

/-- C7: over every sequence of health-record operations, missedPongs
strictly increases only on a CheckHealth call that reports failure;
RecordPong always sets missedPongs to exactly 0 and isHealthy to true;
and CheckHealth on a record that was never pinged always reports
healthy. -/
theorem health_op_invariants :
    (∀ (ch : ConnectionHealth) (op : HealthOp),
      (applyHealthOp ch op).missedPongs > ch.missedPongs →
        ∃ now pongTimeout, op = HealthOp.check now pongTimeout ∧
          healthOpReport ch op = some false) ∧
    (∀ (ch : ConnectionHealth) (now : Int),
      (recordPong ch now).missedPongs = 0 ∧ (recordPong ch now).isHealthy = true) ∧
    (∀ (ch : ConnectionHealth) (now pongTimeout : Int),
      ch.lastPingTime = none → (checkHealth ch now pongTimeout).1 = true) := by
  refine ⟨?_, ?_, ?_⟩
  · intro ch op h
    cases op with
    | ping now => simp [applyHealthOp, recordPing] at h
    | pong now => simp [applyHealthOp, recordPong] at h
    | activity now => simp [applyHealthOp, recordActivity] at h
    | check now pongTimeout =>
      refine ⟨now, pongTimeout, rfl, ?_⟩
      rcases hp : ch.lastPingTime with _ | p
      · simp [applyHealthOp, checkHealth, hp] at h
      · rcases hq : ch.lastPongTime with _ | q
        · by_cases ht : now - p > pongTimeout
          · simp [healthOpReport, checkHealth, hp, hq, ht]
          · simp [applyHealthOp, checkHealth, hp, hq, ht] at h
        · by_cases ht : now - q > pongTimeout
          · simp [healthOpReport, checkHealth, hp, hq, ht]
          · simp [applyHealthOp, checkHealth, hp, hq, ht] at h
  · intro ch now
    exact ⟨rfl, rfl⟩
  · intro ch now pongTimeout hp
    simp [checkHealth, hp]

/-- Witness for C7: applied at concrete records — a pong zeroes
missedPongs, a never-pinged record checks healthy, and an unanswered
ping past the timeout is a failing check. -/
theorem health_op_invariants_witness :
    (recordPong (newConnectionHealth 0) 3).missedPongs = 0 ∧
    (checkHealth (newConnectionHealth 0) 100 5).1 = true ∧
    (∃ now pongTimeout, HealthOp.check 10 5 = HealthOp.check now pongTimeout ∧
      healthOpReport chPinged (HealthOp.check 10 5) = some false) :=
  ⟨(health_op_invariants.2.1 (newConnectionHealth 0) 3).1,
   health_op_invariants.2.2 (newConnectionHealth 0) 100 5 (by decide),
   health_op_invariants.1 chPinged (HealthOp.check 10 5) (by decide)⟩

/-- C10: for a user id with no recorded rate-limit state,
`GetRateLimitStatus` reports remaining = 0 together with the configured
limit and the full window duration. -/
theorem rate_limit_status_unknown_user (rl : RateLimiter) (userID : String) (now : Int)
    (h : mapGet rl.limits userID = none) :
    getRateLimitStatus rl userID now =
      (0, rl.config.rateLimitMessages, rl.config.rateLimitWindow) := by
  simp [getRateLimitStatus, h]

/-- Witness for C10: an empty limiter reports (0, limit, window) for any
user. -/
theorem rate_limit_status_unknown_user_witness :
    getRateLimitStatus { limits := [], config := cfgEx } "u" 0 = (0, 2, 10) :=
  rate_limit_status_unknown_user { limits := [], config := cfgEx } "u" 0 rfl

/-! ## Lemmas about the rate limiter -/

lemma mapGet_mapSet_self (m : List (String × UserRateLimit)) (k : String) (v : UserRateLimit) :
    mapGet (mapSet m k v) k = some v := by
  induction m with
  | nil => simp [mapGet, mapSet]
  | cons a rest ih =>
    obtain ⟨k', v'⟩ := a
    by_cases h : k' = k
    · simp [mapGet, mapSet, h]
    · simp [mapGet, mapSet, h, ih]

lemma checkRateLimit_eq (rl : RateLimiter) (uid : String) (now : Int)
    (hen : rl.config.enableRateLimit = true) :
    checkRateLimit rl uid now =
      (if (effectiveLimit rl uid now).messageCount ≥ rl.config.rateLimitMessages then
        (false, { rl with limits := mapSet rl.limits uid (effectiveLimit rl uid now) })
      else
        (true, { rl with limits := mapSet rl.limits uid ⟨(effectiveLimit rl uid now).messageCount + 1, (effectiveLimit rl uid now).windowStart⟩ })) := by
  simp only [checkRateLimit, hen, Bool.true_eq_false, if_false, effectiveLimit, currentLimit]

lemma checkRateLimit_config (rl : RateLimiter) (uid : String) (now : Int) :
    (checkRateLimit rl uid now).2.config = rl.config := by
  by_cases hen : rl.config.enableRateLimit = true
  · rw [checkRateLimit_eq rl uid now hen]
    by_cases h : (effectiveLimit rl uid now).messageCount ≥ rl.config.rateLimitMessages
    · simp [h]
    · simp [h]
  · have hfalse : rl.config.enableRateLimit = false := by
      cases hb : rl.config.enableRateLimit
      · rfl
      · exact absurd hb hen
    simp [checkRateLimit, hfalse]

lemma checkRateLimit_in_window (rl : RateLimiter) (uid : String) (t cnt ws : Int)
    (hen : rl.config.enableRateLimit = true)
    (hget : mapGet rl.limits uid = some { messageCount := cnt, windowStart := ws })
    (hwin : t - ws ≤ rl.config.rateLimitWindow) :
    if cnt ≥ rl.config.rateLimitMessages then
      (checkRateLimit rl uid t).1 = false ∧
        mapGet (checkRateLimit rl uid t).2.limits uid =
          some { messageCount := cnt, windowStart := ws }
    else
      (checkRateLimit rl uid t).1 = true ∧
        mapGet (checkRateLimit rl uid t).2.limits uid =
          some { messageCount := cnt + 1, windowStart := ws } := by
  have hcur : currentLimit rl uid t = { messageCount := cnt, windowStart := ws } := by
    simp [currentLimit, hget]
  have heff : effectiveLimit rl uid t = { messageCount := cnt, windowStart := ws } := by
    rw [effectiveLimit, hcur]
    exact if_neg (not_lt.mpr hwin)
  rw [checkRateLimit_eq rl uid t hen, heff]
  by_cases h : cnt ≥ rl.config.rateLimitMessages
  · simp [h, mapGet_mapSet_self]
  · simp [h, mapGet_mapSet_self]

lemma checkRateLimit_window_start (rl : RateLimiter) (uid : String) (t0 : Int)
    (hen : rl.config.enableRateLimit = true)
    (heff : effectiveLimit rl uid t0 = { messageCount := 0, windowStart := t0 }) :
    if (0 : Int) ≥ rl.config.rateLimitMessages then
      (checkRateLimit rl uid t0).1 = false ∧
        mapGet (checkRateLimit rl uid t0).2.limits uid =
          some { messageCount := 0, windowStart := t0 }
    else
      (checkRateLimit rl uid t0).1 = true ∧
        mapGet (checkRateLimit rl uid t0).2.limits uid =
          some { messageCount := 1, windowStart := t0 } := by
  rw [checkRateLimit_eq rl uid t0 hen, heff]
  by_cases h : (0 : Int) ≥ rl.config.rateLimitMessages
  · simp [h, mapGet_mapSet_self]
  · simp [h, mapGet_mapSet_self]

lemma runCalls_in_window (uid : String) :
    ∀ (ts : List Int) (rl : RateLimiter) (cnt ws : Int),
      rl.config.enableRateLimit = true →
      mapGet rl.limits uid = some { messageCount := cnt, windowStart := ws } →
      cnt ≤ rl.config.rateLimitMessages →
      (∀ t ∈ ts, t - ws ≤ rl.config.rateLimitWindow) →
      ∃ cnt' : Int,
        mapGet (runCalls rl uid ts).1.limits uid =
          some { messageCount := cnt', windowStart := ws } ∧
        (runCalls rl uid ts).1.config = rl.config ∧
        (countAccepts (runCalls rl uid ts).2 : Int) = cnt' - cnt ∧
        cnt ≤ cnt' ∧ cnt' ≤ rl.config.rateLimitMessages := by
  intro ts
  induction ts with
  | nil =>
    intro rl cnt ws _ hget hcnt _
    exact ⟨cnt, hget, rfl, by simp [runCalls, countAccepts], le_refl _, hcnt⟩
  | cons t ts ih =>
    intro rl cnt ws hen hget hcnt hwin
    have hstep := checkRateLimit_in_window rl uid t cnt ws hen hget
      (hwin t (List.mem_cons_self t ts))
    have hcfg := checkRateLimit_config rl uid t
    by_cases hlim : cnt ≥ rl.config.rateLimitMessages
    · rw [if_pos hlim] at hstep
      obtain ⟨cnt', h1, h2, h3, h4, h5⟩ := ih (checkRateLimit rl uid t).2 cnt ws
        (by rw [hcfg]; exact hen) hstep.2 (by rw [hcfg]; exact hcnt)
        (fun t' ht' => by rw [hcfg]; exact hwin t' (List.mem_cons_of_mem _ ht'))
      rw [hcfg] at h2 h5
      refine ⟨cnt', by simpa [runCalls] using h1, by simpa [runCalls] using h2, ?_, h4, h5⟩
      have haccepts : countAccepts ((runCalls rl uid (t :: ts)).2) =
          countAccepts ((runCalls (checkRateLimit rl uid t).2 uid ts).2) := by
        simp [runCalls, countAccepts, hstep.1]
      rw [haccepts]
      exact h3
    · rw [if_neg hlim] at hstep
      obtain ⟨cnt', h1, h2, h3, h4, h5⟩ := ih (checkRateLimit rl uid t).2 (cnt + 1) ws
        (by rw [hcfg]; exact hen) hstep.2 (by rw [hcfg]; omega)
        (fun t' ht' => by rw [hcfg]; exact hwin t' (List.mem_cons_of_mem _ ht'))
      rw [hcfg] at h2 h5
      refine ⟨cnt', by simpa [runCalls] using h1, by simpa [runCalls] using h2, ?_, by omega, h5⟩
      have haccepts : countAccepts ((runCalls rl uid (t :: ts)).2) =
          1 + countAccepts ((runCalls (checkRateLimit rl uid t).2 uid ts).2) := by
        simp [runCalls, countAccepts, hstep.1]
      rw [haccepts]
      push_cast
      omega

lemma runCalls_replicate_accepts (uid : String) :
    ∀ (k : Nat) (rl : RateLimiter) (c now : Int),
      rl.config.enableRateLimit = true →
      mapGet rl.limits uid = some { messageCount := c, windowStart := now } →
      0 ≤ rl.config.rateLimitWindow →
      c + k ≤ rl.config.rateLimitMessages →
      countAccepts (runCalls rl uid (List.replicate k now)).2 = k := by
  intro k
  induction k with
  | zero =>
    intro rl c now _ _ _ _
    simp [runCalls, countAccepts]
  | succ k ih =>
    intro rl c now hen hget hW hle
    have hwin : now - now ≤ rl.config.rateLimitWindow := by omega
    have hstep := checkRateLimit_in_window rl uid now c now hen hget hwin
    have hlim : ¬ c ≥ rl.config.rateLimitMessages := by
      push_cast at hle
      omega
    rw [if_neg hlim] at hstep
    have hcfg := checkRateLimit_config rl uid now
    have hrest := ih (checkRateLimit rl uid now).2 (c + 1) now (by rw [hcfg]; exact hen)
      hstep.2 (by rw [hcfg]; exact hW) (by rw [hcfg]; push_cast at hle ⊢; omega)
    simp [List.replicate_succ, runCalls, countAccepts, hstep.1, hrest, Nat.add_comm]

/-- C8: with rate limiting enabled the limiter is a lazily-reset fixed
window. (i) Per call: the effective per-user state is the stored one,
reset to a zero count starting now exactly when `now - windowStart`
exceeds the window; the call rejects exactly when the effective count has
reached the limit, stores the incremented count on accept and the
effective state unchanged on reject. (ii) Starting from a
window-starting call at `t0` (effective state: count 0, window start
`t0`), at most `L` calls are accepted among that call and any further
calls within `W` of `t0`. (iii) Once `W` has strictly elapsed past the
stored window start, a fresh `L`-budget is available: `k ≤ L` immediate
calls are all accepted. -/
theorem rate_limiter_fixed_window :
    (∀ (rl : RateLimiter) (uid : String) (now : Int),
      rl.config.enableRateLimit = true →
      (effectiveLimit rl uid now =
        (if now - (currentLimit rl uid now).windowStart > rl.config.rateLimitWindow then
          { messageCount := 0, windowStart := now }
        else currentLimit rl uid now)) ∧
      ((checkRateLimit rl uid now).1 = false ↔
        (effectiveLimit rl uid now).messageCount ≥ rl.config.rateLimitMessages) ∧
      ((checkRateLimit rl uid now).1 = true →
        mapGet (checkRateLimit rl uid now).2.limits uid =
          some { messageCount := (effectiveLimit rl uid now).messageCount + 1
                 windowStart := (effectiveLimit rl uid now).windowStart }) ∧
      ((checkRateLimit rl uid now).1 = false →
        mapGet (checkRateLimit rl uid now).2.limits uid =
          some (effectiveLimit rl uid now))) ∧
    (∀ (rl : RateLimiter) (uid : String) (t0 : Int) (ts : List Int),
      rl.config.enableRateLimit = true →
      0 ≤ rl.config.rateLimitMessages →
      effectiveLimit rl uid t0 = { messageCount := 0, windowStart := t0 } →
      (∀ t ∈ ts, t - t0 ≤ rl.config.rateLimitWindow) →
      (countAccepts ((checkRateLimit rl uid t0).1 ::
        (runCalls (checkRateLimit rl uid t0).2 uid ts).2) : Int)
          ≤ rl.config.rateLimitMessages) ∧
    (∀ (rl : RateLimiter) (uid : String) (ul : UserRateLimit) (now : Int) (k : Nat),
      rl.config.enableRateLimit = true →
      0 ≤ rl.config.rateLimitWindow →
      mapGet rl.limits uid = some ul →
      now - ul.windowStart > rl.config.rateLimitWindow →
      (k : Int) ≤ rl.config.rateLimitMessages →
      countAccepts (runCalls rl uid (List.replicate k now)).2 = k) := by
  refine ⟨?_, ?_, ?_⟩
  · intro rl uid now hen
    refine ⟨rfl, ?_, ?_, ?_⟩
    · rw [checkRateLimit_eq rl uid now hen]
      by_cases h : (effectiveLimit rl uid now).messageCount ≥ rl.config.rateLimitMessages
      · simp [h]
      · simp [h]
    · intro hacc
      rw [checkRateLimit_eq rl uid now hen] at hacc ⊢
      by_cases h : (effectiveLimit rl uid now).messageCount ≥ rl.config.rateLimitMessages
      · rw [if_pos h] at hacc
        cases hacc
      · rw [if_neg h]
        simp [mapGet_mapSet_self]
    · intro hrej
      rw [checkRateLimit_eq rl uid now hen] at hrej ⊢
      by_cases h : (effectiveLimit rl uid now).messageCount ≥ rl.config.rateLimitMessages
      · rw [if_pos h]
        simp [mapGet_mapSet_self]
      · rw [if_neg h] at hrej
        cases hrej
  · intro rl uid t0 ts hen hL heff hwin
    have hws := checkRateLimit_window_start rl uid t0 hen heff
    have hcfg := checkRateLimit_config rl uid t0
    by_cases h0 : (0 : Int) ≥ rl.config.rateLimitMessages
    · rw [if_pos h0] at hws
      obtain ⟨cnt', _, _, h3, h4, h5⟩ := runCalls_in_window uid ts (checkRateLimit rl uid t0).2
        0 t0 (by rw [hcfg]; exact hen) hws.2 (by rw [hcfg]; exact hL)
        (fun t ht => by rw [hcfg]; exact hwin t ht)
      rw [hcfg] at h5
      have : countAccepts ((checkRateLimit rl uid t0).1 ::
          (runCalls (checkRateLimit rl uid t0).2 uid ts).2) =
          countAccepts ((runCalls (checkRateLimit rl uid t0).2 uid ts).2) := by
        simp [countAccepts, hws.1]
      rw [this]
      omega
    · rw [if_neg h0] at hws
      obtain ⟨cnt', _, _, h3, h4, h5⟩ := runCalls_in_window uid ts (checkRateLimit rl uid t0).2
        1 t0 (by rw [hcfg]; exact hen) hws.2 (by rw [hcfg]; omega)
        (fun t ht => by rw [hcfg]; exact hwin t ht)
      rw [hcfg] at h5
      have : countAccepts ((checkRateLimit rl uid t0).1 ::
          (runCalls (checkRateLimit rl uid t0).2 uid ts).2) =
          1 + countAccepts ((runCalls (checkRateLimit rl uid t0).2 uid ts).2) := by
        simp [countAccepts, hws.1]
      rw [this]
      push_cast
      omega
  · intro rl uid ul now k hen hW hget hexp hk
    cases k with
    | zero => simp [runCalls, countAccepts]
    | succ k =>
      have hcur : currentLimit rl uid now = ul := by simp [currentLimit, hget]
      have heff : effectiveLimit rl uid now = { messageCount := 0, windowStart := now } := by
        rw [effectiveLimit, hcur, if_pos hexp]
      have hws := checkRateLimit_window_start rl uid now hen heff
      have h0 : ¬ (0 : Int) ≥ rl.config.rateLimitMessages := by
        push_cast at hk
        omega
      rw [if_neg h0] at hws
      have hcfg := checkRateLimit_config rl uid now
      have hrest := runCalls_replicate_accepts uid k (checkRateLimit rl uid now).2 1 now
        (by rw [hcfg]; exact hen) hws.2 (by rw [hcfg]; exact hW)
        (by rw [hcfg]; push_cast at hk ⊢; omega)
      simp [List.replicate_succ, runCalls, countAccepts, hws.1, hrest, Nat.add_comm]

/-- Witness for C8: with limit 2 and window 10, a user whose stored
window (count 2, started at t = 0) has expired by t = 11 gets a fresh
budget — two immediate calls are both accepted. -/
theorem rate_limiter_fixed_window_witness :
    countAccepts (runCalls
      { limits := [("u", { messageCount := 2, windowStart := 0 })], config := cfgEx }
      "u" (List.replicate 2 11)).2 = 2 :=
  rate_limiter_fixed_window.2.2
    { limits := [("u", { messageCount := 2, windowStart := 0 })], config := cfgEx }
    "u" { messageCount := 2, windowStart := 0 } 11 2
    (by decide) (by decide) (by decide) (by decide) (by decide)

end RealtimeChat
